import Mathlib

/-!
Verification development for the LockIn habit-tracking app core
(state model, persistence gateway and derived-analytics engine).

The TypeScript core is shallowly embedded:

* JavaScript numbers are modelled as rationals (all numbers handled by the
  core are exact decimals well inside double precision), timestamps as
  rationals (epoch milliseconds) and calendar arithmetic of the host
  `Date` class via an explicit proleptic-Gregorian model (`civilFromDays`)
  parameterised by the local-time-zone offset in minutes (the value of
  `getTimezoneOffset()`), so "local time" is explicit.
* JavaScript strings produced by number formatting are modelled by
  `intDecChars` (decimal digits, `-` sign for negatives), matching the
  template-literal conversion `${n}` for integral numbers.
* `localStorage` is a key/value store whose stored strings are either
  syntactically valid JSON (carried as a parsed `Json` tree) or not
  (`Stored.raw`); a `failing` flag models `setItem` throwing
  (quota exceeded).  Fallible operations return `Except String`.
* Duck-typed JavaScript values flowing out of `JSON.parse` are `Json`
  trees; typed application values are Lean structures related to their
  stored form by explicit encoders (`encodeState` models what
  `JSON.stringify` writes).
-/

/-! ## Definitions -/

def digitChar (n : ℕ) : Char := Char.ofNat (48 + n)

def natDecAux : ℕ → ℕ → List Char
  | 0, _ => []
  | fuel + 1, n =>
    if n < 10 then [digitChar n]
    else natDecAux fuel (n / 10) ++ [digitChar (n % 10)]

/-- Decimal digit list of a natural number. -/
def natDecChars (n : ℕ) : List Char := natDecAux (n + 1) n

/-- Value of a digit list (left inverse of the printer). -/
def decValue (cs : List Char) : ℕ :=
  cs.foldl (fun a c => 10 * a + (c.toNat - 48)) 0

/-- Decimal string (as a char list) of an integer, models the JS conversion
of an integral number to a string. -/
def intDecChars (z : ℤ) : List Char :=
  if z < 0 then '-' :: natDecChars (-z).toNat else natDecChars z.toNat

def intDecode (cs : List Char) : ℤ :=
  match cs with
  | [] => 0
  | c :: rest => if c = '-' then -(decValue rest : ℤ) else (decValue (c :: rest) : ℤ)

/-- Model of the JS string method call padStart(2, "0") applied to the
decimal string of an integer. -/
def pad2 (z : ℤ) : List Char :=
  let s := intDecChars z
  if s.length < 2 then '0' :: s else s

def civilParts (doe : ℤ) : ℤ × ℤ × ℤ × ℤ :=
  let c := doe / 36524 - doe / 146096
  let r2 := doe - 36524 * c
  let q := r2 / 1461
  let r3 := r2 - 1461 * q
  let ry := r3 / 365 - r3 / 1460
  (c, q, ry, r3 - 365 * ry)

def monthOf (doy : ℤ) : ℤ × ℤ :=
  let mp := (5 * doy + 2) / 153
  (mp + (if mp < 10 then 3 else -9), doy - (153 * mp + 2) / 5 + 1)

def civilFromDays (z : ℤ) : ℤ × ℤ × ℤ :=
  let era := (z + 719468) / 146097
  let doe := (z + 719468) % 146097
  let p := civilParts doe
  let y := era * 400 + (100 * p.1 + 4 * p.2.1 + p.2.2.1)
  let md := monthOf p.2.2.2
  (if md.1 ≤ 2 then y + 1 else y, md.1, md.2)

def daysFromCivil (y m d : ℤ) : ℤ :=
  let y2 := if m ≤ 2 then y - 1 else y
  let era := y2 / 400
  let yoe := y2 - 400 * era
  let c := yoe / 100
  let q := (yoe - 100 * c) / 4
  let ry := yoe - 100 * c - 4 * q
  let doy := (153 * (if m > 2 then m - 3 else m + 9) + 2) / 5 + d - 1
  era * 146097 + 36524 * c + 1461 * q + 365 * ry + doy - 719468

/-- Model of the template literal in `dayKey`: the year, a dash, the
two-digit padded month, a dash, the two-digit padded day of month. -/
def fmtCivil (ymd : ℤ × ℤ × ℤ) : String :=
  ⟨intDecChars ymd.1 ++ '-' :: (pad2 ymd.2.1 ++ '-' :: pad2 ymd.2.2)⟩

/-- The `YYYY-MM-DD` key string of a local day number. -/
def dayKeyOfNum (n : ℤ) : String := fmtCivil (civilFromDays n)

/-- Local calendar-day number of a timestamp (epoch milliseconds), for a
time zone whose `getTimezoneOffset()` is `tzMin` minutes: the floor of
(ts - tzMin * 60000) / 86400000.  Timestamps handled by the app are
integral milliseconds, so the floor is taken first and the remaining
division is euclidean division on integers, which agrees with the
rational floor. -/
def localDayNumber (tzMin : ℤ) (ts : ℚ) : ℤ := (ts.floor - tzMin * 60000) / 86400000

/-- The source function dayKey: formats a timestamp as a local-time
`YYYY-MM-DD` string, zero-padded. -/
def dayKey (tzMin : ℤ) (ts : ℚ) : String := dayKeyOfNum (localDayNumber tzMin ts)

/-- English short month name, as produced by toLocaleDateString in the
default en-US locale. -/
def monthShortName (m : ℤ) : String :=
  if m = 1 then "Jan" else if m = 2 then "Feb" else if m = 3 then "Mar"
  else if m = 4 then "Apr" else if m = 5 then "May" else if m = 6 then "Jun"
  else if m = 7 then "Jul" else if m = 8 then "Aug" else if m = 9 then "Sep"
  else if m = 10 then "Oct" else if m = 11 then "Nov" else "Dec"

/-- The source function fmtShort: toLocaleDateString with options
month short and day numeric, modelled for the default en-US locale
(for example "Oct 12": no year, month name, unpadded day). -/
def fmtShort (tzMin : ℤ) (ts : ℚ) : String :=
  let ymd := civilFromDays (localDayNumber tzMin ts)
  monthShortName ymd.2.1 ++ " " ++ String.mk (intDecChars ymd.2.2)

/-- A parsed JSON value: the duck-typed JavaScript values that flow out of
JSON.parse and into JSON.stringify. -/
inductive Json where
  | null : Json
  | bool (b : Bool) : Json
  | num (q : ℚ) : Json
  | str (s : String) : Json
  | arr (elems : List Json) : Json
  | obj (fields : List (String × Json)) : Json

/-- A string sitting in the store: either it parses as JSON (carried
parsed) or it does not. -/
inductive Stored where
  | raw (s : String) : Stored
  | json (j : Json) : Stored

/-- The abstract synchronous key/value store backing localStorage.
`failing = true` models an environment in which setItem throws
(for example quota exceeded). -/
structure KVStore where
  entries : List (String × Stored)
  failing : Bool

def recordSet {α : Type} (l : List (String × α)) (k : String) (v : α) :
    List (String × α) :=
  match l with
  | [] => [(k, v)]
  | (k', v') :: rest =>
    if k' = k then (k', v) :: rest else (k', v') :: recordSet rest k v

def recordGet {α : Type} (l : List (String × α)) (k : String) : Option α :=
  (l.find? (fun p => p.1 = k)).map (fun p => p.2)

def KVStore.getItem (store : KVStore) (k : String) : Option Stored :=
  recordGet store.entries k

def KVStore.setItem (store : KVStore) (k : String) (v : Stored) :
    Except String KVStore :=
  if store.failing then .error "QuotaExceededError"
  else .ok { store with entries := recordSet store.entries k v }

def KVStore.removeItem (store : KVStore) (k : String) : KVStore :=
  { store with entries := store.entries.filter (fun p => p.1 ≠ k) }

/-- JS truthiness of a parsed JSON value. -/
def jsTruthy : Json → Bool
  | .null => false
  | .bool b => b
  | .num q => decide (q ≠ 0)
  | .str s => decide (s ≠ "")
  | .arr _ => true
  | .obj _ => true

/-- Whether `typeof v` is the string "object" (true for objects, arrays
and null). -/
def jsTypeofObject : Json → Bool
  | .null => true
  | .arr _ => true
  | .obj _ => true
  | _ => false

/-- Property read `v[k]`; `none` models undefined. -/
def jsGetField : Json → String → Option Json
  | .obj fields, k => recordGet fields k
  | _, _ => none

/-- The `in` operator restricted to string keys of plain objects. -/
def jsHasField (j : Json) (k : String) : Bool :=
  match jsGetField j k with
  | some _ => true
  | none => false

/-- Property write `v[k] = x` on an object whose key `k` is already
present (replaces in place, keeps key order). -/
def jsSetField : Json → String → Json → Json
  | .obj fields, k, v => .obj (recordSet fields k v)
  | j, _, _ => j

/-- Truthiness of the optional chain `v?.[k]` (undefined is falsy). -/
def jsFieldTruthy (j : Json) (k : String) : Bool :=
  match jsGetField j k with
  | some v => jsTruthy v
  | none => false

/-- The current schema version constant. -/
def SCHEMA_VERSION : ℚ := 1

structure Mission where
  text : String
  done : Bool
  deriving DecidableEq

structure TimeBlocks where
  am : String
  pm : String
  deriving DecidableEq

structure UrgeEntry where
  id : String
  type : String
  customLabel : Option String
  intensity : ℚ
  resisted : Bool
  note : Option String
  ts : ℚ
  deriving DecidableEq

structure DaySnapshot where
  day : String
  energy : ℚ
  mood : ℚ
  sleep : ℚ
  spent : ℚ
  timeBlocks : Option TimeBlocks
  missions : List Mission
  urges : List UrgeEntry
  updatedAt : ℚ
  deriving DecidableEq

structure UIState where
  tab : String
  deriving DecidableEq

structure LockInState where
  version : ℚ
  days : List (String × DaySnapshot)
  ui : UIState
  deriving DecidableEq

def encodeMission (m : Mission) : Json :=
  .obj [("text", .str m.text), ("done", .bool m.done)]

def encodeTimeBlocks (tb : TimeBlocks) : Json :=
  .obj [("am", .str tb.am), ("pm", .str tb.pm)]

def encodeUrge (u : UrgeEntry) : Json :=
  match u.customLabel, u.note with
  | some c, some n =>
    .obj [("id", .str u.id), ("type", .str u.type), ("customLabel", .str c),
          ("intensity", .num u.intensity), ("resisted", .bool u.resisted),
          ("note", .str n), ("ts", .num u.ts)]
  | some c, none =>
    .obj [("id", .str u.id), ("type", .str u.type), ("customLabel", .str c),
          ("intensity", .num u.intensity), ("resisted", .bool u.resisted),
          ("ts", .num u.ts)]
  | none, some n =>
    .obj [("id", .str u.id), ("type", .str u.type),
          ("intensity", .num u.intensity), ("resisted", .bool u.resisted),
          ("note", .str n), ("ts", .num u.ts)]
  | none, none =>
    .obj [("id", .str u.id), ("type", .str u.type),
          ("intensity", .num u.intensity), ("resisted", .bool u.resisted),
          ("ts", .num u.ts)]

def encodeDay (d : DaySnapshot) : Json :=
  match d.timeBlocks with
  | some tb =>
    .obj [("day", .str d.day), ("energy", .num d.energy), ("mood", .num d.mood),
          ("sleep", .num d.sleep), ("spent", .num d.spent),
          ("timeBlocks", encodeTimeBlocks tb),
          ("missions", .arr (d.missions.map encodeMission)),
          ("urges", .arr (d.urges.map encodeUrge)),
          ("updatedAt", .num d.updatedAt)]
  | none =>
    .obj [("day", .str d.day), ("energy", .num d.energy), ("mood", .num d.mood),
          ("sleep", .num d.sleep), ("spent", .num d.spent),
          ("missions", .arr (d.missions.map encodeMission)),
          ("urges", .arr (d.urges.map encodeUrge)),
          ("updatedAt", .num d.updatedAt)]

def encodeState (s : LockInState) : Json :=
  .obj [("version", .num s.version),
        ("days", .obj (s.days.map (fun kv => (kv.1, encodeDay kv.2)))),
        ("ui", .obj [("tab", .str s.ui.tab)])]

def optMapList {α β : Type} (f : α → Option β) : List α → Option (List β)
  | [] => some []
  | x :: xs =>
    match f x, optMapList f xs with
    | some y, some ys => some (y :: ys)
    | _, _ => none

def decodeMission : Json → Option Mission
  | .obj [("text", .str t), ("done", .bool d)] => some ⟨t, d⟩
  | _ => none

def decodeTimeBlocks : Json → Option TimeBlocks
  | .obj [("am", .str a), ("pm", .str p)] => some ⟨a, p⟩
  | _ => none

def decodeUrge : Json → Option UrgeEntry
  | .obj [("id", .str i), ("type", .str t), ("customLabel", .str c),
          ("intensity", .num q), ("resisted", .bool r), ("note", .str n),
          ("ts", .num s)] => some ⟨i, t, some c, q, r, some n, s⟩
  | .obj [("id", .str i), ("type", .str t), ("customLabel", .str c),
          ("intensity", .num q), ("resisted", .bool r), ("ts", .num s)] =>
      some ⟨i, t, some c, q, r, none, s⟩
  | .obj [("id", .str i), ("type", .str t),
          ("intensity", .num q), ("resisted", .bool r), ("note", .str n),
          ("ts", .num s)] => some ⟨i, t, none, q, r, some n, s⟩
  | .obj [("id", .str i), ("type", .str t),
          ("intensity", .num q), ("resisted", .bool r), ("ts", .num s)] =>
      some ⟨i, t, none, q, r, none, s⟩
  | _ => none

def decodeDay : Json → Option DaySnapshot
  | .obj [("day", .str dk), ("energy", .num e), ("mood", .num mo),
          ("sleep", .num sl), ("spent", .num sp), ("timeBlocks", tb),
          ("missions", .arr ms), ("urges", .arr us), ("updatedAt", .num ua)] =>
    (match decodeTimeBlocks tb, optMapList decodeMission ms, optMapList decodeUrge us with
     | some tbv, some missions, some urges =>
        some ⟨dk, e, mo, sl, sp, some tbv, missions, urges, ua⟩
     | _, _, _ => none)
  | .obj [("day", .str dk), ("energy", .num e), ("mood", .num mo),
          ("sleep", .num sl), ("spent", .num sp),
          ("missions", .arr ms), ("urges", .arr us), ("updatedAt", .num ua)] =>
    (match optMapList decodeMission ms, optMapList decodeUrge us with
     | some missions, some urges =>
        some ⟨dk, e, mo, sl, sp, none, missions, urges, ua⟩
     | _, _ => none)
  | _ => none

def decodeState : Json → Option LockInState
  | .obj [("version", .num v), ("days", .obj ds), ("ui", .obj [("tab", .str t)])] =>
    (match optMapList (fun kv => (decodeDay kv.2).map (fun d => (kv.1, d))) ds with
     | some days => some ⟨v, days, ⟨t⟩⟩
     | none => none)
  | _ => none

def KEY_STATE : String := "lockin.state"

def KEY_URGES : String := "lockin.v1.urges"

def KEY_ENERGY : String := "lockin.v1.energy"

def KEY_MISSIONS : String := "lockin.v1.missions"

def KEY_TIMEBLOCKS : String := "lockin.v1.timeblocks"

def KEY_MOOD : String := "lockin.v1.mood"

def KEY_SLEEP : String := "lockin.v1.sleep"

def KEY_SPENT : String := "lockin.v1.spent"

/-- The storage-module todayKey: returns fmtShort of the current date
(the adjacent source comment says it expects YYYY-MM-DD). -/
def storageTodayKey (tzMin : ℤ) (now : ℚ) : String := fmtShort tzMin now

/-- The dates-module todayKey: dayKey of the current timestamp. -/
def datesTodayKey (tzMin : ℤ) (now : ℚ) : String := dayKey tzMin now

def defaultMissions : List Mission :=
  [⟨"", false⟩, ⟨"", false⟩, ⟨"", false⟩]

def defaultDay (day : String) (now : ℚ) : DaySnapshot :=
  { day := day, energy := 3, mood := 3, sleep := 7, spent := 0,
    timeBlocks := some ⟨"", ""⟩, missions := defaultMissions, urges := [],
    updatedAt := now }

def defaultState : LockInState :=
  { version := SCHEMA_VERSION, days := [], ui := ⟨"today"⟩ }

/-- JSON image of the fresh default state object. -/
def jsDefaultState : Json := encodeState defaultState

/-- safeParse at a legacy key: the stored value when its text parses as
JSON, otherwise the per-field fallback (also used when the key is
absent). -/
def legacyVal (store : KVStore) (k : String) (fallback : Json) : Json :=
  match store.getItem k with
  | some (.json j) => j
  | _ => fallback

/-- Truthiness of `v && v.length > 0` (and of the condition `v.length ?`):
true exactly for non-empty arrays and non-empty strings. -/
def jsLengthPositive : Json → Bool
  | .arr l => !l.isEmpty
  | .str s => decide (s ≠ "")
  | _ => false

/-- JS strict disequality of a parsed value with a number literal. -/
def jsNeNum (j : Json) (q : ℚ) : Bool :=
  match j with
  | .num x => decide (x ≠ q)
  | _ => true

/-- Evaluation of the some-callback body over one element of the legacy
missions array: property access on a null element throws, and calling
trim on a non-string non-null text field throws. -/
def missionTextNonEmpty : Json → Except String Bool
  | .null => .error "TypeError"
  | .obj fs =>
    (match recordGet fs "text" with
     | none => .ok false
     | some (.str s) => .ok (decide (s.trim ≠ ""))
     | some .null => .ok false
     | some _ => .error "TypeError")
  | _ => .ok false

/-- Short-circuiting some over the array elements (a later element that
would throw is not reached once an earlier one returns true). -/
def anyMissionTextNonEmpty : List Json → Except String Bool
  | [] => .ok false
  | m :: rest =>
    match missionTextNonEmpty m with
    | .error e => .error e
    | .ok true => .ok true
    | .ok false => anyMissionTextNonEmpty rest

/-- The whole expression over the legacy missions value (null-conditional
call of some, with fallback false; calling some on a non-array throws). -/
def legacyMissionsHaveText : Json → Except String Bool
  | .null => .ok false
  | .arr l => anyMissionTextNonEmpty l
  | _ => .error "TypeError"

/-- Evaluation of the trimmed-length check of one legacy time-block field
(null-conditional member access, fallback empty string). -/
def timeBlockFieldNonEmpty (j : Json) (k : String) : Except String Bool :=
  match j with
  | .obj fs =>
    (match recordGet fs k with
     | none => .ok false
     | some (.str s) => .ok (decide (s.trim ≠ ""))
     | some .null => .ok false
     | some _ => .error "TypeError")
  | _ => .ok false

/-- The hasAnyLegacy disjunction, evaluated left to right with JS
short-circuiting. -/
def hasAnyLegacyCheck (urgesJ energyJ moodJ sleepJ spentJ missionsJ tbJ : Json) :
    Except String Bool :=
  if jsLengthPositive urgesJ then .ok true
  else if jsNeNum energyJ 3 then .ok true
  else if jsNeNum moodJ 3 then .ok true
  else if jsNeNum sleepJ 7 then .ok true
  else if jsNeNum spentJ 0 then .ok true
  else
    match legacyMissionsHaveText missionsJ with
    | .error e => .error e
    | .ok true => .ok true
    | .ok false =>
      match timeBlockFieldNonEmpty tbJ "am" with
      | .error e => .error e
      | .ok true => .ok true
      | .ok false => timeBlockFieldNonEmpty tbJ "pm"

/-- The default missions array as it appears in stored JSON. -/
def defaultMissionsJson : Json := .arr (defaultMissions.map encodeMission)

/-- migrateLegacyIntoState: reads the seven legacy keys (each with its
fallback), and either returns the default state unchanged (no legacy
data) or builds today's snapshot from the legacy values, writes the new
canonical state, removes the legacy keys and returns the new state.
The day key comes from the storage-module todayKey. -/
def migrateLegacyIntoState (tzMin : ℤ) (now : ℚ) (store : KVStore) :
    Except String (Json × KVStore) :=
  let day := storageTodayKey tzMin now
  let legacyUrges := legacyVal store KEY_URGES (.arr [])
  let legacyEnergy := legacyVal store KEY_ENERGY (.num 3)
  let legacyMood := legacyVal store KEY_MOOD (.num 3)
  let legacySleep := legacyVal store KEY_SLEEP (.num 7)
  let legacySpent := legacyVal store KEY_SPENT (.num 0)
  let legacyMissions := legacyVal store KEY_MISSIONS defaultMissionsJson
  let legacyTimeBlocks := legacyVal store KEY_TIMEBLOCKS
    (.obj [("am", .str ""), ("pm", .str "")])
  match hasAnyLegacyCheck legacyUrges legacyEnergy legacyMood legacySleep legacySpent
      legacyMissions legacyTimeBlocks with
  | .error e => .error e
  | .ok false => .ok (jsDefaultState, store)
  | .ok true =>
    let snapshot : Json := .obj
      [("day", .str day), ("energy", legacyEnergy), ("mood", legacyMood),
       ("sleep", legacySleep), ("spent", legacySpent),
       ("timeBlocks", legacyTimeBlocks),
       ("missions", if jsLengthPositive legacyMissions then legacyMissions
                    else defaultMissionsJson),
       ("urges", match legacyUrges with | .null => .arr [] | j => j),
       ("updatedAt", .num now)]
    let stateJson : Json := .obj
      [("version", .num SCHEMA_VERSION), ("days", .obj [(day, snapshot)]),
       ("ui", .obj [("tab", .str "today")])]
    match store.setItem KEY_STATE (.json stateJson) with
    | .error e => .error e
    | .ok store1 =>
      .ok (stateJson,
        (((((((store1.removeItem KEY_URGES).removeItem KEY_ENERGY).removeItem
          KEY_MISSIONS).removeItem KEY_TIMEBLOCKS).removeItem KEY_MOOD).removeItem
          KEY_SLEEP).removeItem KEY_SPENT))

/-- The validation and fallback chain of loadState applied to the value
found at the canonical key. -/
def validateRaw (v : Stored) : Json :=
  match v with
  | .raw _ => jsDefaultState
  | .json j =>
    if !jsTruthy j || !jsTypeofObject j then jsDefaultState
    else if !(jsHasField j "version" && jsHasField j "days" && jsHasField j "ui")
      then jsDefaultState
    else if (match jsGetField j "version" with
             | some (.num q) => decide (q ≠ SCHEMA_VERSION)
             | _ => true) then jsDefaultState
    else if !(match jsGetField j "ui" with
              | some ui => jsFieldTruthy ui "tab"
              | none => false)
      then jsSetField j "ui" (.obj [("tab", .str "today")])
    else j

/-- loadState: `if (!raw) return migrateLegacyIntoState();` is falsy both for
an absent key (getItem returns null) and for a stored empty string, so both
run legacy migration; any other stored string goes through safeParse and the
validation chain. -/
def loadState (tzMin : ℤ) (now : ℚ) (store : KVStore) :
    Except String (Json × KVStore) :=
  match store.getItem KEY_STATE with
  | none => migrateLegacyIntoState tzMin now store
  | some (.raw s) =>
    if s = "" then migrateLegacyIntoState tzMin now store
    else .ok (validateRaw (.raw s), store)
  | some (.json j) => .ok (validateRaw (.json j), store)

def saveState (s : LockInState) (store : KVStore) : Except String KVStore :=
  store.setItem KEY_STATE (.json (encodeState s))

def getDay (now : ℚ) (state : LockInState) (day : String) : DaySnapshot :=
  match recordGet state.days day with
  | some d => d
  | none => defaultDay day now

def upsertDay (now : ℚ) (state : LockInState) (next : DaySnapshot) : LockInState :=
  { state with days := recordSet state.days next.day { next with updatedAt := now } }

def commitDay (now : ℚ) (state : LockInState) (day : DaySnapshot) (store : KVStore) :
    Except String (LockInState × KVStore) :=
  match saveState (upsertDay now state day) store with
  | .ok store1 => .ok (upsertDay now state day, store1)
  | .error e => .error e

/-- Math.round: half-up rounding (toward positive infinity on ties). -/
def jsRound (q : ℚ) : ℤ := ⌊q + 1 / 2⌋

/-- The local clamp helper of the scoring module. -/
def clampQ (n lo hi : ℚ) : ℚ := max lo (min hi n)

/-- The pct helper: round, then clamp into [0, 100]. -/
def pct (n : ℚ) : ℤ := max 0 (min 100 (jsRound n))

def missionCompletionPercent (missions : List Mission) : ℤ :=
  let active := missions.filter (fun m => decide (m.text.trim.length > 0))
  if active.isEmpty then 0
  else pct ((((active.filter (fun m => m.done)).length : ℚ) / (active.length : ℚ)) * 100)

def urgeResistPercent (list : List UrgeEntry) : ℤ :=
  if list.isEmpty then 0
  else pct ((((list.filter (fun u => u.resisted)).length : ℚ) / (list.length : ℚ)) * 100)

def sleepScore (hours : ℚ) : ℤ :=
  if 7 ≤ hours ∧ hours ≤ 8 then 100
  else if hours = 6 then 80
  else if hours = 5 then 60
  else if hours = 4 then 40
  else if hours ≤ 3 then 20
  else if hours = 9 then 90
  else if 10 ≤ hours then 80
  else 70

inductive Grade where
  | controlled | solid | unstable | red
  deriving DecidableEq

structure DailyScore where
  score : ℤ
  grade : Grade
  urgeBreakdown : ℤ
  missBreakdown : ℤ
  energyBreakdown : ℤ
  moodBreakdown : ℤ
  sleepBreakdown : ℤ
  deriving DecidableEq

def calcDailyScoreFromDay (day : DaySnapshot) : DailyScore :=
  let urge := urgeResistPercent day.urges
  let miss := missionCompletionPercent day.missions
  let energy := pct (clampQ day.energy 1 5 / 5 * 100)
  let mood := pct (clampQ day.mood 1 5 / 5 * 100)
  let sleep := sleepScore (clampQ day.sleep 0 24)
  let score : ℚ := 0.4 * (urge : ℚ) + 0.25 * (miss : ℚ) + 0.15 * (energy : ℚ) +
    0.1 * (mood : ℚ) + 0.1 * (sleep : ℚ)
  let final := pct score
  let grade : Grade :=
    if final ≥ 90 then .controlled
    else if final ≥ 75 then .solid
    else if final ≥ 60 then .unstable
    else .red
  ⟨final, grade, urge, miss, energy, mood, sleep⟩

def urgesOn (state : LockInState) (n : ℤ) : List UrgeEntry :=
  match recordGet state.days (dayKeyOfNum n) with
  | some d => d.urges
  | none => []

/-- The loop-body test: the day has at least one urge and all are
resisted. -/
def isCleanDay (state : LockInState) (n : ℤ) : Bool :=
  !(urgesOn state n).isEmpty && (urgesOn state n).all (fun u => u.resisted)

def streakLoop (state : LockInState) : ℕ → ℤ → ℕ
  | 0, _ => 0
  | fuel + 1, n =>
    if isCleanDay state n then streakLoop state fuel (n - 1) + 1 else 0

/-- calcStreakFromState: walks backward from the reference local day,
counting consecutive clean days.  The unbounded while-true loop of the
source is given fuel one larger than the number of stored days; the
termination theorem proves the fuel is never exhausted. -/
def calcStreakFromState (state : LockInState) (today : ℤ) : ℕ :=
  streakLoop state (state.days.length + 1) today

inductive WeekRank where
  | controlledWeek | solidWeek | unstable | relapseWeek
  deriving DecidableEq

structure WeeklyRank where
  rank : WeekRank
  score : ℤ
  resistedPct : ℤ
  slipDays : ℕ
  deriving DecidableEq

def calcWeeklyRank (tzMin : ℤ) (weekEntries : List UrgeEntry) : WeeklyRank :=
  let total := weekEntries.length
  let resisted := (weekEntries.filter (fun u => u.resisted)).length
  let resistedPct : ℚ := if total ≠ 0 then ((resisted : ℚ) / (total : ℚ)) * 100 else 0
  let slipDays := ((weekEntries.filter (fun u => !u.resisted)).map
    (fun u => dayKey tzMin u.ts)).dedup
  let score : ℚ := resistedPct - (slipDays.length : ℚ) * 6
  let final := max 0 (min 100 (jsRound score))
  let rank : WeekRank :=
    if final ≥ 90 then .controlledWeek
    else if final ≥ 75 then .solidWeek
    else if final ≥ 60 then .unstable
    else .relapseWeek
  ⟨rank, final, jsRound resistedPct, slipDays.length⟩

/-- Result of the import handler: the alert message, the in-memory state
afterwards and the store afterwards. -/
structure ImportOutcome where
  message : String
  state : Json
  store : KVStore

/-- onImportFile (first variant): parses the chosen file, requires a
truthy state field and version strictly equal to 1, then applies
setState and saveState.  For file text that is not valid JSON the alert
carries the parse error message, summarised here as "SyntaxError". -/
def onImportFile (fileText : Stored) (st : Json) (store : KVStore) : ImportOutcome :=
  match fileText with
  | .raw _ => ⟨"SyntaxError", st, store⟩
  | .json parsed =>
    match jsGetField parsed "state" with
    | none => ⟨"Invalid backup file.", st, store⟩
    | some stJ =>
      if !jsTruthy stJ then ⟨"Invalid backup file.", st, store⟩
      else if (match jsGetField parsed "version" with
               | some (.num q) => decide (q ≠ 1)
               | _ => true) then ⟨"Invalid backup file.", st, store⟩
      else
        match store.setItem KEY_STATE (.json stJ) with
        | .ok store1 => ⟨"Backup imported successfully.", stJ, store1⟩
        | .error e => ⟨e, stJ, store⟩

/-- onImportFile (second variant): additionally requires truthy days and
ui fields on the imported state. -/
def onImportFile2 (fileText : Stored) (st : Json) (store : KVStore) : ImportOutcome :=
  match fileText with
  | .raw _ => ⟨"SyntaxError", st, store⟩
  | .json parsed =>
    match jsGetField parsed "state" with
    | none => ⟨"Invalid backup file.", st, store⟩
    | some stJ =>
      if !jsTruthy stJ then ⟨"Invalid backup file.", st, store⟩
      else if (match jsGetField parsed "version" with
               | some (.num q) => decide (q ≠ 1)
               | _ => true) then ⟨"Invalid backup file.", st, store⟩
      else if !jsFieldTruthy stJ "days" || !jsFieldTruthy stJ "ui" then
        ⟨"Backup missing required fields.", st, store⟩
      else
        match store.setItem KEY_STATE (.json stJ) with
        | .ok store1 => ⟨"Backup imported successfully.", stJ, store1⟩
        | .error e => ⟨e, stJ, store⟩

def c2State : LockInState := defaultState

def c2Day : DaySnapshot := defaultDay "2026-10-12" 0

def c2FailStore : KVStore := ⟨[], true⟩

def c9Payload : Json :=
  .obj [("version", .num 2), ("exportedAt", .num 0),
        ("state", .obj [("version", .num 1), ("days", .obj []),
                        ("ui", .obj [("tab", .str "today")])])]

def c9Store : KVStore := ⟨[], false⟩

/-- The claim's notion of an invalid backup payload: the version tag is
not the number 1, or the state field is missing. -/
def invalidBackupPayload (parsed : Json) : Prop :=
  (∀ q : ℚ, jsGetField parsed "version" = some (.num q) → q ≠ 1) ∨
  jsGetField parsed "state" = none

/-- Stored values the amended claim says reset to defaults: non-empty
unparsable text (the empty string is falsy and takes the migration branch
instead), or a parse result that is falsy or not of object type, or lacks
one of the three top-level fields, or whose version is not the number 1. -/
def storedResetsToDefault : Stored → Prop
  | .raw s => s ≠ ""
  | .json j =>
    jsTruthy j = false ∨ jsTypeofObject j = false ∨
    jsHasField j "version" = false ∨ jsHasField j "days" = false ∨
    jsHasField j "ui" = false ∨
    (∀ q : ℚ, jsGetField j "version" = some (.num q) → q ≠ 1)

/-- A parsable state with the current version whose ui.tab is absent. -/
def goodStateNoTab (j : Json) : Prop :=
  jsTruthy j = true ∧ jsTypeofObject j = true ∧
  jsHasField j "version" = true ∧ jsHasField j "days" = true ∧
  jsHasField j "ui" = true ∧
  jsGetField j "version" = some (.num 1) ∧
  (∀ ui : Json, jsGetField j "ui" = some ui → jsGetField ui "tab" = none)

def c3BadStore : KVStore := ⟨[(KEY_STATE, .raw "#not-json#")], false⟩

def c3NoTabJson : Json := .obj [("version", .num 1), ("days", .obj []), ("ui", .obj [])]

def c3NoTabStore : KVStore := ⟨[(KEY_STATE, .json c3NoTabJson)], false⟩

/-- Counterexample store for the original claim: the canonical key holds the
empty string (unparsable as JSON) while a legacy key still holds data. -/
def c3EmptyStore : KVStore :=
  ⟨[(KEY_STATE, .raw ""), (KEY_ENERGY, .json (.num 5))], false⟩

/-- The snapshot legacy migration builds from c3EmptyStore at
now = 1791800430000 ms, time-zone offset 0 (local date 2026-10-12). -/
def c3MigSnapshot : Json :=
  .obj [("day", .str "Oct 12"), ("energy", .num 5), ("mood", .num 3),
        ("sleep", .num 7), ("spent", .num 0),
        ("timeBlocks", .obj [("am", .str ""), ("pm", .str "")]),
        ("missions", defaultMissionsJson), ("urges", .arr []),
        ("updatedAt", .num 1791800430000)]

/-- The state legacy migration returns from c3EmptyStore. -/
def c3MigStateJson : Json :=
  .obj [("version", .num 1), ("days", .obj [("Oct 12", c3MigSnapshot)]),
        ("ui", .obj [("tab", .str "today")])]

def c3StoreAfterMig : KVStore := ⟨[(KEY_STATE, .json c3MigStateJson)], false⟩

def c1Now : ℚ := 1791800430000

def c1Store : KVStore := ⟨[(KEY_ENERGY, .json (.num 5))], false⟩

def c1Snapshot : Json :=
  .obj [("day", .str "Oct 12"), ("energy", .num 5), ("mood", .num 3),
        ("sleep", .num 7), ("spent", .num 0),
        ("timeBlocks", .obj [("am", .str ""), ("pm", .str "")]),
        ("missions", defaultMissionsJson), ("urges", .arr []),
        ("updatedAt", .num c1Now)]

def c1StateJson : Json :=
  .obj [("version", .num 1), ("days", .obj [("Oct 12", c1Snapshot)]),
        ("ui", .obj [("tab", .str "today")])]

def c1StoreAfter : KVStore := ⟨[(KEY_STATE, .json c1StateJson)], false⟩

/-- A well-formed state: current schema version and a legal tab value. -/
def WellFormedState (s : LockInState) : Prop :=
  s.version = SCHEMA_VERSION ∧
  (s.ui.tab = "today" ∨ s.ui.tab = "weekly" ∨ s.ui.tab = "history")

def c4State : LockInState :=
  ⟨1,
   [("2026-10-12",
     ⟨"2026-10-12", 4, 3, 7, 0, some ⟨"plan", ""⟩, [⟨"write", true⟩],
      [⟨"u1", "scrolling", none, 3, true, none, 1791800430000⟩], 1791800430000⟩)],
   ⟨"today"⟩⟩

def c4Store : KVStore := ⟨[], false⟩

/-- The claim's per-scale percentage: round(clamp(x,1,5)/5*100). -/
def specScalePct (x : ℚ) : ℤ := jsRound (clampQ x 1 5 / 5 * 100)

/-- The claim's score formula: the weighted sum, clamped to [0,100] and
rounded. -/
def specDailyScore (day : DaySnapshot) : ℤ :=
  jsRound (clampQ (0.4 * (urgeResistPercent day.urges : ℚ) +
    0.25 * (missionCompletionPercent day.missions : ℚ) +
    0.15 * (specScalePct day.energy : ℚ) + 0.1 * (specScalePct day.mood : ℚ) +
    0.1 * (sleepScore day.sleep : ℚ)) 0 100)

/-- The claim's grade thresholds, evaluated top-down on the final score. -/
def specGrade (n : ℤ) : Grade :=
  if n ≥ 90 then .controlled
  else if n ≥ 75 then .solid
  else if n ≥ 60 then .unstable
  else .red

/-- The claim's slip-day count: distinct local calendar days (by local
date of each entry's timestamp) containing a non-resisted entry. -/
def slipDayCount (tzMin : ℤ) (entries : List UrgeEntry) : ℕ :=
  ((entries.filter (fun u => !u.resisted)).map
    (fun u => localDayNumber tzMin u.ts)).dedup.length

/-- The claim's resisted percentage: 100 * resisted / total, 0 when the
list is empty. -/
def specResistedPct (entries : List UrgeEntry) : ℚ :=
  if entries.length = 0 then 0
  else 100 * ((entries.filter (fun u => u.resisted)).length : ℚ) / (entries.length : ℚ)

/-- The claim's weekly score: resistedPct minus six per slip day, clamped
to [0,100] and rounded. -/
def specWeeklyScore (tzMin : ℤ) (entries : List UrgeEntry) : ℤ :=
  jsRound (clampQ (specResistedPct entries - 6 * (slipDayCount tzMin entries : ℚ)) 0 100)

/-- The claim's rank bands (same thresholds as the daily grade). -/
def specWeekRank (n : ℤ) : WeekRank :=
  if n ≥ 90 then .controlledWeek
  else if n ≥ 75 then .solidWeek
  else if n ≥ 60 then .unstable
  else .relapseWeek

def c8u (i : String) (res : Bool) (ts : ℚ) : UrgeEntry :=
  ⟨i, "scrolling", none, 3, res, none, ts⟩

def c8Entries : List UrgeEntry :=
  [c8u "a" true 1791000000000, c8u "b" true 1791000000001, c8u "c" true 1791000000002,
   c8u "d" true 1791000000003, c8u "e" true 1791000000004,
   c8u "f" false 1791000000005, c8u "g" false 1791000000006, c8u "h" false 1791000000007,
   c8u "i" false 1791086400005, c8u "j" false 1791086400006]

/-! ## Theorems -/

theorem decValue_append (l : List Char) (c : Char) :
    decValue (l ++ [c]) = 10 * decValue l + (c.toNat - 48) := by
  simp [decValue, List.foldl_append]

theorem digitChar_toNat (k : ℕ) (h : k < 10) : (digitChar k).toNat = 48 + k := by
  interval_cases k <;> decide

theorem decValue_natDecAux (fuel n : ℕ) (h : n < fuel) :
    decValue (natDecAux fuel n) = n := by
  induction fuel generalizing n with
  | zero => omega
  | succ fuel ih =>
    rw [natDecAux]
    by_cases h10 : n < 10
    · simp only [if_pos h10]
      show decValue ([] ++ [digitChar n]) = n
      rw [decValue_append, digitChar_toNat n h10]
      simp [decValue]
    · simp only [if_neg h10]
      rw [decValue_append, ih (n / 10) (by omega), digitChar_toNat (n % 10) (by omega)]
      omega

theorem decValue_natDecChars (n : ℕ) : decValue (natDecChars n) = n :=
  decValue_natDecAux (n + 1) n (by omega)

theorem natDecAux_head_digit (fuel n : ℕ) (h : n < fuel) :
    ∃ k l, natDecAux fuel n = digitChar k :: l ∧ k < 10 := by
  induction fuel generalizing n with
  | zero => omega
  | succ fuel ih =>
    rw [natDecAux]
    by_cases h10 : n < 10
    · exact ⟨n, [], by simp [h10], h10⟩
    · obtain ⟨k, l, hk, hk10⟩ := ih (n / 10) (by omega)
      refine ⟨k, l ++ [digitChar (n % 10)], ?_, hk10⟩
      simp [h10, hk]

theorem natDecChars_head_digit (n : ℕ) :
    ∃ k l, natDecChars n = digitChar k :: l ∧ k < 10 :=
  natDecAux_head_digit (n + 1) n (by omega)

theorem digitChar_ne_minus (k : ℕ) (h : k < 10) : digitChar k ≠ '-' := by
  interval_cases k <;> decide

theorem intDecode_cons_minus (l : List Char) : intDecode ('-' :: l) = -(decValue l : ℤ) :=
  rfl

theorem intDecode_cons_other (c : Char) (l : List Char) (h : c ≠ '-') :
    intDecode (c :: l) = (decValue (c :: l) : ℤ) := by
  simp [intDecode, h]

theorem intDecode_intDecChars (z : ℤ) : intDecode (intDecChars z) = z := by
  by_cases h : z < 0
  · rw [intDecChars, if_pos h, intDecode_cons_minus, decValue_natDecChars]
    omega
  · rw [intDecChars, if_neg h]
    obtain ⟨k, l, hk, hk10⟩ := natDecChars_head_digit z.toNat
    rw [hk, intDecode_cons_other _ _ (digitChar_ne_minus k hk10), ← hk, decValue_natDecChars]
    omega

theorem intDecChars_injective : Function.Injective intDecChars := by
  intro a b h
  have := intDecode_intDecChars a
  rw [h, intDecode_intDecChars] at this
  omega

theorem decValue_pad2 (z : ℤ) (h : 0 ≤ z) : (decValue (pad2 z) : ℤ) = z := by
  have hdec : (decValue (intDecChars z) : ℤ) = z := by
    have h2 : intDecChars z = natDecChars z.toNat := by
      rw [intDecChars, if_neg (by omega)]
    rw [h2, decValue_natDecChars]; omega
  simp only [pad2]
  by_cases hl : (intDecChars z).length < 2
  · simp only [if_pos hl]
    show ((decValue ('0' :: intDecChars z) : ℕ) : ℤ) = z
    have : decValue ('0' :: intDecChars z) = decValue (intDecChars z) := by
      simp [decValue]
    rw [this, hdec]
  · simpa [hl] using hdec

theorem natDecChars_length_one (n : ℕ) (h : n < 10) : (natDecChars n).length = 1 := by
  rw [natDecChars, natDecAux, if_pos h]
  rfl

theorem natDecChars_length_two (n : ℕ) (h1 : 10 ≤ n) (h2 : n < 100) :
    (natDecChars n).length = 2 := by
  have hrec : natDecAux n (n / 10) = [digitChar (n / 10)] := by
    match n, h1 with
    | n + 10, _ =>
      rw [natDecAux.eq_def]
      simp only []
      rw [if_pos (by omega)]
  rw [natDecChars, natDecAux, if_neg (by omega), hrec]
  rfl

theorem pad2_length (z : ℤ) (h0 : 0 ≤ z) (h1 : z ≤ 99) : (pad2 z).length = 2 := by
  have h2 : intDecChars z = natDecChars z.toNat := by
    rw [intDecChars, if_neg (by omega)]
  by_cases h : z < 10
  · have hlen := natDecChars_length_one z.toNat (by omega)
    simp only [pad2, h2, hlen]
    simp [hlen]
  · have hlen := natDecChars_length_two z.toNat (by omega) (by omega)
    simp only [pad2, h2, hlen]
    simp [hlen]

set_option maxHeartbeats 1000000 in
theorem civilParts_spec (doe : ℤ) (h0 : 0 ≤ doe) (h1 : doe ≤ 146096) :
    0 ≤ (civilParts doe).1 ∧ (civilParts doe).1 ≤ 3 ∧
    0 ≤ (civilParts doe).2.1 ∧ (civilParts doe).2.1 ≤ 24 ∧
    0 ≤ (civilParts doe).2.2.1 ∧ (civilParts doe).2.2.1 ≤ 3 ∧
    0 ≤ (civilParts doe).2.2.2 ∧ (civilParts doe).2.2.2 ≤ 365 ∧
    doe = 36524 * (civilParts doe).1 + 1461 * (civilParts doe).2.1 +
      365 * (civilParts doe).2.2.1 + (civilParts doe).2.2.2 := by
  simp only [civilParts]
  omega

set_option maxHeartbeats 1000000 in
theorem monthOf_spec (doy : ℤ) (h0 : 0 ≤ doy) (h1 : doy ≤ 365) :
    1 ≤ (monthOf doy).1 ∧ (monthOf doy).1 ≤ 12 ∧
    1 ≤ (monthOf doy).2 ∧ (monthOf doy).2 ≤ 31 ∧
    (2 < (monthOf doy).1 →
      (153 * ((monthOf doy).1 - 3) + 2) / 5 + (monthOf doy).2 - 1 = doy) ∧
    ((monthOf doy).1 ≤ 2 →
      (153 * ((monthOf doy).1 + 9) + 2) / 5 + (monthOf doy).2 - 1 = doy) ∧
    ((monthOf doy).1 ≤ 2 ↔ 306 ≤ doy) := by
  simp only [monthOf]
  split_ifs <;> omega

set_option maxHeartbeats 1000000 in
theorem daysFromCivil_reconstruct (z era doe b c d doy m dd : ℤ)
    (hez : 146097 * era + doe = z + 719468)
    (hdoe0 : 0 ≤ doe) (hdoe1 : doe ≤ 146096)
    (hb0 : 0 ≤ b) (hb1 : b ≤ 3) (hc0 : 0 ≤ c) (hc1 : c ≤ 24)
    (hd0 : 0 ≤ d) (hd1 : d ≤ 3) (hdoy0 : 0 ≤ doy) (hdoy1 : doy ≤ 365)
    (hsum : doe = 36524 * b + 1461 * c + 365 * d + doy)
    (hm0 : 1 ≤ m) (hm1 : m ≤ 12)
    (hinvA : 2 < m → (153 * (m - 3) + 2) / 5 + dd - 1 = doy)
    (hinvB : m ≤ 2 → (153 * (m + 9) + 2) / 5 + dd - 1 = doy) :
    daysFromCivil (if m ≤ 2 then era * 400 + (100 * b + 4 * c + d) + 1
      else era * 400 + (100 * b + 4 * c + d)) m dd = z := by
  simp only [daysFromCivil]
  have hA : (era * 400 + (100 * b + 4 * c + d)) / 400 = era := by omega
  have hACsub : era * 400 + (100 * b + 4 * c + d) - 400 * era = 100 * b + 4 * c + d := by ring
  split_ifs with h1 h2 h2
  · exact absurd h2 (by omega)
  · have hv := hinvB h1
    have e1 : era * 400 + (100 * b + 4 * c + d) + 1 - 1
        = era * 400 + (100 * b + 4 * c + d) := by ring
    rw [e1, hA, hACsub]
    have hB : (100 * b + 4 * c + d) / 100 = b := by omega
    rw [hB]
    have hC : (100 * b + 4 * c + d - 100 * b) / 4 = c := by omega
    rw [hC]
    omega
  · have hv := hinvA h2
    rw [hA, hACsub]
    have hB : (100 * b + 4 * c + d) / 100 = b := by omega
    rw [hB]
    have hC : (100 * b + 4 * c + d - 100 * b) / 4 = c := by omega
    rw [hC]
    omega
  · omega

set_option maxHeartbeats 1000000 in
theorem daysFromCivil_civilFromDays (z : ℤ) :
    daysFromCivil (civilFromDays z).1 (civilFromDays z).2.1 (civilFromDays z).2.2 = z := by
  have hdoe0 : 0 ≤ (z + 719468) % 146097 := Int.emod_nonneg _ (by norm_num)
  have hdoe1 : (z + 719468) % 146097 ≤ 146096 := by omega
  have hp := civilParts_spec ((z + 719468) % 146097) hdoe0 hdoe1
  have hm := monthOf_spec (civilParts ((z + 719468) % 146097)).2.2.2 (by tauto) (by tauto)
  have hez : 146097 * ((z + 719468) / 146097) + (z + 719468) % 146097 = z + 719468 :=
    Int.ediv_add_emod _ _
  obtain ⟨hc0, hc1, hq0, hq1, hr0, hr1, hd0, hd1, hsum⟩ := hp
  obtain ⟨hm1, hm2, he1, he2, hinvA, hinvB, hiff⟩ := hm
  simp only [civilFromDays]
  exact daysFromCivil_reconstruct z _ _ _ _ _ _ _ _ hez hdoe0 hdoe1 hc0 hc1 hq0 hq1 hr0 hr1
    hd0 hd1 hsum hm1 hm2 hinvA hinvB

theorem civilFromDays_injective : Function.Injective civilFromDays := by
  intro a b h
  have ha := daysFromCivil_civilFromDays a
  have hb := daysFromCivil_civilFromDays b
  rw [h] at ha
  omega

theorem civilFromDays_month_range (z : ℤ) :
    1 ≤ (civilFromDays z).2.1 ∧ (civilFromDays z).2.1 ≤ 12 ∧
    1 ≤ (civilFromDays z).2.2 ∧ (civilFromDays z).2.2 ≤ 31 := by
  have hdoe0 : 0 ≤ (z + 719468) % 146097 := Int.emod_nonneg _ (by norm_num)
  have hdoe1 : (z + 719468) % 146097 ≤ 146096 := by omega
  have hp := civilParts_spec ((z + 719468) % 146097) hdoe0 hdoe1
  have hm := monthOf_spec (civilParts ((z + 719468) % 146097)).2.2.2 (by tauto) (by tauto)
  obtain ⟨hm1, hm2, he1, he2, -⟩ := hm
  simp only [civilFromDays]
  exact ⟨hm1, hm2, he1, he2⟩

theorem fmtCivil_inj (y1 m1 d1 y2 m2 d2 : ℤ)
    (hm1a : 0 ≤ m1) (hm1b : m1 ≤ 99) (hd1a : 0 ≤ d1) (hd1b : d1 ≤ 99)
    (hm2a : 0 ≤ m2) (hm2b : m2 ≤ 99) (hd2a : 0 ≤ d2) (hd2b : d2 ≤ 99)
    (h : fmtCivil (y1, m1, d1) = fmtCivil (y2, m2, d2)) :
    y1 = y2 ∧ m1 = m2 ∧ d1 = d2 := by
  have hdata : intDecChars y1 ++ '-' :: (pad2 m1 ++ '-' :: pad2 d1)
      = intDecChars y2 ++ '-' :: (pad2 m2 ++ '-' :: pad2 d2) := congrArg String.data h
  have hlen : (intDecChars y1).length = (intDecChars y2).length := by
    have := congrArg List.length hdata
    simp only [List.length_append, List.length_cons] at this
    rw [pad2_length m1 hm1a hm1b, pad2_length d1 hd1a hd1b,
        pad2_length m2 hm2a hm2b, pad2_length d2 hd2a hd2b] at this
    omega
  obtain ⟨hy, hrest⟩ := List.append_inj hdata hlen
  have hy' : y1 = y2 := intDecChars_injective hy
  rw [List.cons.injEq] at hrest
  obtain ⟨-, hrest2⟩ := hrest
  obtain ⟨hm, hd⟩ := List.append_inj hrest2
    (by rw [pad2_length m1 hm1a hm1b, pad2_length m2 hm2a hm2b])
  rw [List.cons.injEq] at hd
  obtain ⟨-, hd2⟩ := hd
  refine ⟨hy', ?_, ?_⟩
  · have := congrArg decValue hm
    have h1 := decValue_pad2 m1 hm1a
    have h2 := decValue_pad2 m2 hm2a
    omega
  · have := congrArg decValue hd2
    have h1 := decValue_pad2 d1 hd1a
    have h2 := decValue_pad2 d2 hd2a
    omega

theorem dayKeyOfNum_injective : Function.Injective dayKeyOfNum := by
  intro a b h
  have ra := civilFromDays_month_range a
  have rb := civilFromDays_month_range b
  have h' : fmtCivil ((civilFromDays a).1, (civilFromDays a).2.1, (civilFromDays a).2.2)
      = fmtCivil ((civilFromDays b).1, (civilFromDays b).2.1, (civilFromDays b).2.2) := h
  obtain ⟨hy, hm, hd⟩ := fmtCivil_inj _ _ _ _ _ _
    (by omega) (by omega) (by omega) (by omega) (by omega) (by omega) (by omega) (by omega) h'
  apply civilFromDays_injective
  have e1 : civilFromDays a
      = ((civilFromDays a).1, (civilFromDays a).2.1, (civilFromDays a).2.2) := rfl
  have e2 : civilFromDays b
      = ((civilFromDays b).1, (civilFromDays b).2.1, (civilFromDays b).2.2) := rfl
  rw [e1, e2, hy, hm, hd]

theorem recordGet_recordSet {α : Type} (l : List (String × α)) (k : String) (v : α) :
    recordGet (recordSet l k v) k = some v := by
  induction l with
  | nil => simp [recordSet, recordGet, List.find?]
  | cons hd tl ih =>
    obtain ⟨k', v'⟩ := hd
    by_cases h : k' = k
    · simp [recordSet, recordGet, List.find?, h]
    · simpa [recordSet, recordGet, List.find?, h] using ih

theorem optMapList_map_eq {α β : Type} (f : α → Option β) (g : β → α)
    (h : ∀ b : β, f (g b) = some b) (l : List β) :
    optMapList f (l.map g) = some l := by
  induction l with
  | nil => rfl
  | cons hd tl ih => simp [optMapList, h hd, ih]

theorem decodeMission_encodeMission (m : Mission) :
    decodeMission (encodeMission m) = some m := rfl

theorem decodeTimeBlocks_encodeTimeBlocks (tb : TimeBlocks) :
    decodeTimeBlocks (encodeTimeBlocks tb) = some tb := rfl

theorem decodeUrge_encodeUrge (u : UrgeEntry) :
    decodeUrge (encodeUrge u) = some u := by
  obtain ⟨i, t, cl, q, r, n, s⟩ := u
  cases cl <;> cases n <;> rfl

set_option maxHeartbeats 2000000 in
theorem decodeDay_encodeDay (d : DaySnapshot) :
    decodeDay (encodeDay d) = some d := by
  obtain ⟨dk, e, mo, sl, sp, tb, ms, us, ua⟩ := d
  have hms := optMapList_map_eq decodeMission encodeMission decodeMission_encodeMission ms
  have hus := optMapList_map_eq decodeUrge encodeUrge decodeUrge_encodeUrge us
  cases tb with
  | none => simp [encodeDay, decodeDay, hms, hus]
  | some tbv => simp [encodeDay, decodeDay, decodeTimeBlocks_encodeTimeBlocks, hms, hus]

set_option maxHeartbeats 2000000 in
theorem decodeState_encodeState (s : LockInState) :
    decodeState (encodeState s) = some s := by
  obtain ⟨v, days, ⟨t⟩⟩ := s
  have hdays := optMapList_map_eq
    (fun kv : String × Json => (decodeDay kv.2).map (fun d => (kv.1, d)))
    (fun kv : String × DaySnapshot => (kv.1, encodeDay kv.2))
    (fun kv => by simp [decodeDay_encodeDay kv.2]) days
  simp [encodeState, decodeState, hdays]

theorem recordGet_recordSet_ne {α : Type} (l : List (String × α)) (k k' : String)
    (v : α) (h : k' ≠ k) : recordGet (recordSet l k v) k' = recordGet l k' := by
  induction l with
  | nil => simp [recordSet, recordGet, List.find?, Ne.symm h]
  | cons hd tl ih =>
    obtain ⟨k0, v0⟩ := hd
    by_cases h0 : k0 = k
    · subst h0
      simp [recordSet, recordGet, List.find?, Ne.symm h]
    · by_cases h1 : k0 = k'
      · subst h1
        simp [recordSet, recordGet, List.find?, h0]
      · simpa [recordSet, recordGet, List.find?, h0, h1] using ih

/-- C5: for every state s and valid snapshot d, reading back the day just
upserted yields d with only updatedAt refreshed to the mutation time;
upsertDay is a pure function of its input state (the input is unchanged
by construction in this embedding). -/
theorem getDay_after_upsertDay (now1 now2 : ℚ) (s : LockInState) (d : DaySnapshot) :
    getDay now2 (upsertDay now1 s d) d.day = { d with updatedAt := now1 } := by
  simp [getDay, upsertDay, recordGet_recordSet]

/-- C2 counterexample: at a concrete state, snapshot and a store whose
set operation fails, commitDay does not return a state at all: the
failure propagates out of saveState and commitDay as the thrown error. -/
theorem commitDay_propagates_at_failing_store :
    (commitDay 0 c2State c2Day c2FailStore).isOk = false ∧
    commitDay 0 c2State c2Day c2FailStore = .error "QuotaExceededError" :=
  ⟨rfl, rfl⟩

/-- C2 (amended): when the store's set operation fails during a write,
saveState and commitDay propagate the failure to the caller (there is no
catch at the write boundary); the failed write leaves the persisted
contents untouched since no store value is produced. -/
theorem saveState_commitDay_propagate (now : ℚ) (s : LockInState) (d : DaySnapshot)
    (store : KVStore) (h : store.failing = true) :
    saveState s store = .error "QuotaExceededError" ∧
    commitDay now s d store = .error "QuotaExceededError" := by
  constructor
  · simp [saveState, KVStore.setItem, h]
  · simp [commitDay, saveState, KVStore.setItem, h]

/-- C2 witness: the amended theorem applied at a concrete failing store. -/
theorem saveState_commitDay_propagate_witness :
    saveState c2State c2FailStore = .error "QuotaExceededError" ∧
    commitDay 0 c2State c2Day c2FailStore = .error "QuotaExceededError" :=
  saveState_commitDay_propagate 0 c2State c2Day c2FailStore rfl

/-- C9: for every backup payload whose version tag is not the number 1 or
whose state field is missing, both import handlers report the descriptive
failure message and leave the in-memory state and the store exactly as
they were: nothing is applied. -/
theorem importFile_invalid_payload_unchanged (parsed st : Json) (store : KVStore)
    (h : invalidBackupPayload parsed) :
    onImportFile (.json parsed) st store = ⟨"Invalid backup file.", st, store⟩ ∧
    onImportFile2 (.json parsed) st store = ⟨"Invalid backup file.", st, store⟩ := by
  cases hstate : jsGetField parsed "state" with
  | none => exact ⟨by simp [onImportFile, hstate], by simp [onImportFile2, hstate]⟩
  | some stJ =>
    rcases h with hver | hnone
    · by_cases ht : jsTruthy stJ
      · cases hv : jsGetField parsed "version" with
        | none =>
          exact ⟨by simp [onImportFile, hstate, ht, hv],
                 by simp [onImportFile2, hstate, ht, hv]⟩
        | some jv =>
          cases jv with
          | num q =>
            have hq := hver q hv
            exact ⟨by simp [onImportFile, hstate, ht, hv, hq],
                   by simp [onImportFile2, hstate, ht, hv, hq]⟩
          | null =>
            exact ⟨by simp [onImportFile, hstate, ht, hv],
                   by simp [onImportFile2, hstate, ht, hv]⟩
          | bool b =>
            exact ⟨by simp [onImportFile, hstate, ht, hv],
                   by simp [onImportFile2, hstate, ht, hv]⟩
          | str s2 =>
            exact ⟨by simp [onImportFile, hstate, ht, hv],
                   by simp [onImportFile2, hstate, ht, hv]⟩
          | arr l =>
            exact ⟨by simp [onImportFile, hstate, ht, hv],
                   by simp [onImportFile2, hstate, ht, hv]⟩
          | obj fs =>
            exact ⟨by simp [onImportFile, hstate, ht, hv],
                   by simp [onImportFile2, hstate, ht, hv]⟩
      · exact ⟨by simp [onImportFile, hstate, ht], by simp [onImportFile2, hstate, ht]⟩
    · rw [hstate] at hnone
      exact absurd hnone (by simp)

/-- C9 witness: the theorem applied to a concrete payload carrying
version 2 and a well-formed state field. -/
theorem importFile_invalid_payload_unchanged_witness :
    onImportFile (.json c9Payload) jsDefaultState c9Store
      = ⟨"Invalid backup file.", jsDefaultState, c9Store⟩ ∧
    onImportFile2 (.json c9Payload) jsDefaultState c9Store
      = ⟨"Invalid backup file.", jsDefaultState, c9Store⟩ :=
  importFile_invalid_payload_unchanged c9Payload jsDefaultState c9Store
    (Or.inl (fun q hq => by
      have h2 : Json.num 2 = Json.num q := Option.some.inj hq
      have h3 : (2 : ℚ) = q := by injection h2
      rw [← h3]
      norm_num))

theorem jsHasField_exists (j : Json) (k : String) (h : jsHasField j k = true) :
    ∃ x, jsGetField j k = some x := by
  unfold jsHasField at h
  cases hx : jsGetField j k with
  | none => rw [hx] at h; simp at h
  | some x => exact ⟨x, rfl⟩

theorem jsGetField_jsSetField_ne (j : Json) (k k' : String) (v : Json) (h : k' ≠ k) :
    jsGetField (jsSetField j k v) k' = jsGetField j k' := by
  cases j <;> simp [jsSetField, jsGetField]
  exact recordGet_recordSet_ne _ _ _ _ h

theorem validateRaw_default (j : Json)
    (hbad : jsTruthy j = false ∨ jsTypeofObject j = false ∨
      jsHasField j "version" = false ∨ jsHasField j "days" = false ∨
      jsHasField j "ui" = false ∨
      (∀ q : ℚ, jsGetField j "version" = some (.num q) → q ≠ 1)) :
    validateRaw (.json j) = jsDefaultState := by
  simp only [validateRaw]
  split_ifs with h1 h2 h3 h4
  · rfl
  · rfl
  · rfl
  · exfalso
    simp only [Bool.or_eq_true, Bool.not_eq_true', not_or, Bool.not_eq_false,
      Bool.and_eq_true] at h1 h2
    rcases hbad with hb | hb | hb | hb | hb | hb
    · exact absurd h1.1 (by simp [hb])
    · exact absurd h1.2 (by simp [hb])
    · exact absurd h2.1.1 (by simp [hb])
    · exact absurd h2.1.2 (by simp [hb])
    · exact absurd h2.2 (by simp [hb])
    · cases hv : jsGetField j "version" with
      | none => rw [hv] at h3; simp at h3
      | some jv =>
        cases jv with
        | num q =>
          rw [hv] at h3
          simp only [decide_eq_true_eq, not_not, SCHEMA_VERSION] at h3
          exact hb q hv h3
        | null => rw [hv] at h3; simp at h3
        | bool b2 => rw [hv] at h3; simp at h3
        | str s2 => rw [hv] at h3; simp at h3
        | arr l => rw [hv] at h3; simp at h3
        | obj fs => rw [hv] at h3; simp at h3
  · exfalso
    simp only [Bool.or_eq_true, Bool.not_eq_true', not_or, Bool.not_eq_false,
      Bool.and_eq_true] at h1 h2
    rcases hbad with hb | hb | hb | hb | hb | hb
    · exact absurd h1.1 (by simp [hb])
    · exact absurd h1.2 (by simp [hb])
    · exact absurd h2.1.1 (by simp [hb])
    · exact absurd h2.1.2 (by simp [hb])
    · exact absurd h2.2 (by simp [hb])
    · cases hv : jsGetField j "version" with
      | none => rw [hv] at h3; simp at h3
      | some jv =>
        cases jv with
        | num q =>
          rw [hv] at h3
          simp only [decide_eq_true_eq, not_not, SCHEMA_VERSION] at h3
          exact hb q hv h3
        | null => rw [hv] at h3; simp at h3
        | bool b2 => rw [hv] at h3; simp at h3
        | str s2 => rw [hv] at h3; simp at h3
        | arr l => rw [hv] at h3; simp at h3
        | obj fs => rw [hv] at h3; simp at h3

theorem validateRaw_backfill (j : Json) (hgood : goodStateNoTab j) :
    validateRaw (.json j) = jsSetField j "ui" (.obj [("tab", .str "today")]) := by
  obtain ⟨ht, hto, hv, hd, hu, hver, htab⟩ := hgood
  obtain ⟨ui, hui⟩ := jsHasField_exists j "ui" hu
  have htabui := htab ui hui
  simp only [validateRaw]
  rw [ht, hto, hv, hd, hu, hver, hui]
  simp [jsFieldTruthy, htabui, SCHEMA_VERSION]

/-- C3 (amended): a stored canonical value that is non-empty unparsable
text, falsy, non-object, missing a top-level field, or version-mismatched
makes loadState return the fresh default state (the stored empty string
is excluded: it is falsy, so loadState runs legacy migration instead —
see the counterexample); a parsable current-version state whose ui.tab
is absent is returned with ui backfilled to the today tab and its days
field untouched. -/
theorem loadState_validation (tz : ℤ) (now : ℚ) (store : KVStore) (v : Stored)
    (hget : store.getItem KEY_STATE = some v) :
    (storedResetsToDefault v →
      loadState tz now store = .ok (jsDefaultState, store)) ∧
    (∀ j : Json, v = .json j → goodStateNoTab j →
      loadState tz now store
        = .ok (jsSetField j "ui" (.obj [("tab", .str "today")]), store) ∧
      jsGetField (jsSetField j "ui" (.obj [("tab", .str "today")])) "days"
        = jsGetField j "days") := by
  constructor
  · intro hbad
    unfold loadState
    rw [hget]
    cases v with
    | raw s2 =>
      have hne : s2 ≠ "" := hbad
      show (if s2 = "" then migrateLegacyIntoState tz now store
            else Except.ok (validateRaw (.raw s2), store))
        = Except.ok (jsDefaultState, store)
      rw [if_neg hne]
      rfl
    | json j =>
      show Except.ok (validateRaw (.json j), store) = Except.ok (jsDefaultState, store)
      rw [validateRaw_default j hbad]
  · intro j hv hgood
    subst hv
    unfold loadState
    rw [hget]
    constructor
    · show Except.ok (validateRaw (.json j), store)
        = Except.ok (jsSetField j "ui" (.obj [("tab", .str "today")]), store)
      rw [validateRaw_backfill j hgood]
    · exact jsGetField_jsSetField_ne j "ui" "days" _ (by decide)

/-- C3 witness: the theorem applied at a store holding unparsable text,
and at a store holding a current-version state without ui.tab. -/
theorem loadState_validation_witness :
    loadState 0 0 c3BadStore = .ok (jsDefaultState, c3BadStore) ∧
    loadState 0 0 c3NoTabStore
      = .ok (jsSetField c3NoTabJson "ui" (.obj [("tab", .str "today")]), c3NoTabStore) :=
  ⟨(loadState_validation 0 0 c3BadStore (.raw "#not-json#") rfl).1
     (show ("#not-json#" : String) ≠ "" by decide),
   ((loadState_validation 0 0 c3NoTabStore (.json c3NoTabJson) rfl).2 c3NoTabJson rfl
     ⟨rfl, rfl, rfl, rfl, rfl, rfl, fun ui h => by
        have h2 : Json.obj [] = ui := Option.some.inj h
        rw [← h2]
        rfl⟩).1⟩

/-- C3 counterexample (refutes the original claim): the empty string at
the canonical key is a stored string that is unparsable JSON, yet
loadState does not return the fresh default state: the source's falsy
check `if (!raw)` treats it like an absent key and runs legacy
migration, which here (one legacy key holding energy 5, now =
1791800430000 ms at time-zone offset 0) returns a migrated one-day
state and rewrites the store. -/
theorem loadState_empty_string_runs_migration :
    loadState 0 1791800430000 c3EmptyStore = .ok (c3MigStateJson, c3StoreAfterMig) ∧
    c3MigStateJson ≠ jsDefaultState := by
  refine ⟨rfl, fun h => ?_⟩
  have h2 : jsGetField c3MigStateJson "days" = jsGetField jsDefaultState "days" := by
    rw [h]
  have h3 : some (Json.obj [("Oct 12", c3MigSnapshot)]) = some (Json.obj []) := h2
  simp at h3

/-- C1 (code-bug exhibit): at local date 2026-10-12 (time zone offset 0)
with one legacy value differing from its default (energy 5), the
migration does construct a single snapshot, write the canonical state
and remove the legacy keys — but it stores the snapshot under the
storage-module todayKey, which is fmtShort's locale string "Oct 12",
not the local YYYY-MM-DD key "2026-10-12" required by the claim and by
the source's own comment next to todayKey. -/
theorem migrateLegacy_writes_locale_day_key :
    migrateLegacyIntoState 0 c1Now c1Store = .ok (c1StateJson, c1StoreAfter) ∧
    jsGetField c1StateJson "days" = some (.obj [("Oct 12", c1Snapshot)]) ∧
    storageTodayKey 0 c1Now = "Oct 12" ∧
    datesTodayKey 0 c1Now = "2026-10-12" ∧
    storageTodayKey 0 c1Now ≠ datesTodayKey 0 c1Now :=
  ⟨rfl, rfl, rfl, rfl, by decide⟩

theorem validateRaw_encodeState (s : LockInState) (hwf : WellFormedState s) :
    validateRaw (.json (encodeState s)) = encodeState s := by
  obtain ⟨hv, htab⟩ := hwf
  have h1 : jsTruthy (encodeState s) = true := rfl
  have h2 : jsTypeofObject (encodeState s) = true := rfl
  have h3 : jsHasField (encodeState s) "version" = true := rfl
  have h4 : jsHasField (encodeState s) "days" = true := rfl
  have h5 : jsHasField (encodeState s) "ui" = true := rfl
  have h6 : jsGetField (encodeState s) "version" = some (.num s.version) := rfl
  have h7 : jsGetField (encodeState s) "ui" = some (.obj [("tab", .str s.ui.tab)]) := rfl
  have h8 : jsTruthy (.str s.ui.tab) = true := by
    rcases htab with h | h | h <;> rw [h] <;> rfl
  simp only [validateRaw]
  rw [h1, h2, h3, h4, h5, h6, h7, hv]
  simp [jsFieldTruthy, jsGetField, recordGet, List.find?, h8]

/-- C4: saving a well-formed current-version state and loading it back
returns exactly the stored image of the state, and that image decodes
back to the state itself (deep equality). -/
theorem saveState_loadState_roundtrip (tz : ℤ) (now : ℚ) (s : LockInState)
    (store : KVStore) (hfail : store.failing = false) (hwf : WellFormedState s) :
    ∃ store1 : KVStore,
      saveState s store = .ok store1 ∧
      loadState tz now store1 = .ok (encodeState s, store1) ∧
      decodeState (encodeState s) = some s := by
  refine ⟨⟨recordSet store.entries KEY_STATE (.json (encodeState s)), store.failing⟩,
    ?_, ?_, decodeState_encodeState s⟩
  · simp [saveState, KVStore.setItem, hfail]
  · unfold loadState
    have hget : KVStore.getItem
        ⟨recordSet store.entries KEY_STATE (.json (encodeState s)), store.failing⟩
        KEY_STATE = some (.json (encodeState s)) := by
      simp [KVStore.getItem, recordGet_recordSet]
    rw [hget]
    show Except.ok (validateRaw (.json (encodeState s)), _) = _
    rw [validateRaw_encodeState s hwf]

/-- C4 witness: the round-trip theorem applied at a concrete one-day
state and an empty, functioning store. -/
theorem saveState_loadState_roundtrip_witness :
    ∃ store1 : KVStore,
      saveState c4State c4Store = .ok store1 ∧
      loadState 0 0 store1 = .ok (encodeState c4State, store1) ∧
      decodeState (encodeState c4State) = some c4State :=
  saveState_loadState_roundtrip 0 0 c4State c4Store rfl ⟨rfl, Or.inl rfl⟩

theorem jsRound_mono (a b : ℚ) (h : a ≤ b) : jsRound a ≤ jsRound b :=
  Int.floor_le_floor (by linarith)

theorem jsRound_nonneg (a : ℚ) (h : 0 ≤ a) : 0 ≤ jsRound a :=
  Int.le_floor.2 (by push_cast; linarith)

theorem jsRound_100 : jsRound 100 = 100 := by
  unfold jsRound
  norm_num

theorem jsRound_le_100 (a : ℚ) (h : a ≤ 100) : jsRound a ≤ 100 := by
  have h2 := jsRound_mono a 100 h
  rw [jsRound_100] at h2
  exact h2

theorem pct_bounds (a : ℚ) : 0 ≤ pct a ∧ pct a ≤ 100 := by
  unfold pct
  omega

theorem pct_eq_jsRound (a : ℚ) (h0 : 0 ≤ a) (h1 : a ≤ 100) : pct a = jsRound a := by
  have hb0 := jsRound_nonneg a h0
  have hb1 := jsRound_le_100 a h1
  unfold pct
  omega

theorem urgeResistPercent_bounds (l : List UrgeEntry) :
    0 ≤ urgeResistPercent l ∧ urgeResistPercent l ≤ 100 := by
  unfold urgeResistPercent
  split_ifs
  · norm_num
  · exact pct_bounds _

theorem missionCompletionPercent_bounds (l : List Mission) :
    0 ≤ missionCompletionPercent l ∧ missionCompletionPercent l ≤ 100 := by
  simp only [missionCompletionPercent]
  split_ifs
  · norm_num
  · exact pct_bounds _

theorem sleepScore_bounds (h : ℚ) : 20 ≤ sleepScore h ∧ sleepScore h ≤ 100 := by
  unfold sleepScore
  split_ifs <;> norm_num

theorem sleepScore_clamp (h : ℚ) : sleepScore (clampQ h 0 24) = sleepScore h := by
  rcases lt_or_le h 0 with hlt | hge
  · have hc : clampQ h 0 24 = 0 := by
      unfold clampQ
      rw [min_eq_right (by linarith), max_eq_left (by linarith)]
    have h0 : sleepScore 0 = 20 := by norm_num [sleepScore]
    rw [hc, h0]
    unfold sleepScore
    split_ifs <;> first | rfl | linarith
  · rcases le_or_lt h 24 with h24 | h24
    · have hc : clampQ h 0 24 = h := by
        unfold clampQ
        rw [min_eq_right h24, max_eq_right hge]
      rw [hc]
    · have hc : clampQ h 0 24 = 24 := by
        unfold clampQ
        rw [min_eq_left (le_of_lt h24), max_eq_right (by norm_num)]
      have h80 : sleepScore 24 = 80 := by norm_num [sleepScore]
      rw [hc, h80]
      unfold sleepScore
      split_ifs <;> first | rfl | linarith

theorem clampQ_scale_bounds (x : ℚ) :
    20 ≤ clampQ x 1 5 / 5 * 100 ∧ clampQ x 1 5 / 5 * 100 ≤ 100 := by
  have hc1 : 1 ≤ clampQ x 1 5 := le_max_left 1 _
  have hc5 : clampQ x 1 5 ≤ 5 := max_le (by norm_num) (min_le_left 5 x)
  constructor <;> nlinarith

theorem scalePct_eq (x : ℚ) : pct (clampQ x 1 5 / 5 * 100) = specScalePct x := by
  obtain ⟨hb0, hb1⟩ := clampQ_scale_bounds x
  unfold specScalePct
  exact pct_eq_jsRound _ (by linarith) hb1

theorem specScalePct_bounds (x : ℚ) : 0 ≤ specScalePct x ∧ specScalePct x ≤ 100 := by
  obtain ⟨hb0, hb1⟩ := clampQ_scale_bounds x
  unfold specScalePct
  exact ⟨jsRound_nonneg _ (by linarith), jsRound_le_100 _ hb1⟩

/-- C6: for every snapshot, the daily score is the claim's rounded and
clamped weighted sum (with the per-scale percentages and the sleep curve
as the claim states them), and the grade is determined by the final
score through the top-down thresholds 90 / 75 / 60. -/
theorem calcDailyScoreFromDay_matches_spec (day : DaySnapshot) :
    (calcDailyScoreFromDay day).score = specDailyScore day ∧
    (calcDailyScoreFromDay day).grade = specGrade ((calcDailyScoreFromDay day).score) ∧
    (calcDailyScoreFromDay day).energyBreakdown = specScalePct day.energy ∧
    (calcDailyScoreFromDay day).moodBreakdown = specScalePct day.mood ∧
    (calcDailyScoreFromDay day).sleepBreakdown = sleepScore day.sleep := by
  obtain ⟨hu0, hu1⟩ := urgeResistPercent_bounds day.urges
  obtain ⟨hm0, hm1⟩ := missionCompletionPercent_bounds day.missions
  obtain ⟨he0, he1⟩ := specScalePct_bounds day.energy
  obtain ⟨ho0, ho1⟩ := specScalePct_bounds day.mood
  obtain ⟨hs0, hs1⟩ := sleepScore_bounds day.sleep
  have hscore : 0 ≤ 0.4 * (urgeResistPercent day.urges : ℚ) +
      0.25 * (missionCompletionPercent day.missions : ℚ) +
      0.15 * (specScalePct day.energy : ℚ) + 0.1 * (specScalePct day.mood : ℚ) +
      0.1 * (sleepScore day.sleep : ℚ) ∧
      0.4 * (urgeResistPercent day.urges : ℚ) +
      0.25 * (missionCompletionPercent day.missions : ℚ) +
      0.15 * (specScalePct day.energy : ℚ) + 0.1 * (specScalePct day.mood : ℚ) +
      0.1 * (sleepScore day.sleep : ℚ) ≤ 100 := by
    constructor <;>
    · have hu0' : (0 : ℚ) ≤ (urgeResistPercent day.urges : ℚ) := by exact_mod_cast hu0
      have hu1' : (urgeResistPercent day.urges : ℚ) ≤ 100 := by exact_mod_cast hu1
      have hm0' : (0 : ℚ) ≤ (missionCompletionPercent day.missions : ℚ) := by
        exact_mod_cast hm0
      have hm1' : (missionCompletionPercent day.missions : ℚ) ≤ 100 := by exact_mod_cast hm1
      have he0' : (0 : ℚ) ≤ (specScalePct day.energy : ℚ) := by exact_mod_cast he0
      have he1' : (specScalePct day.energy : ℚ) ≤ 100 := by exact_mod_cast he1
      have ho0' : (0 : ℚ) ≤ (specScalePct day.mood : ℚ) := by exact_mod_cast ho0
      have ho1' : (specScalePct day.mood : ℚ) ≤ 100 := by exact_mod_cast ho1
      have hs0' : (20 : ℚ) ≤ (sleepScore day.sleep : ℚ) := by exact_mod_cast hs0
      have hs1' : (sleepScore day.sleep : ℚ) ≤ 100 := by exact_mod_cast hs1
      linarith
  have hclamp : clampQ (0.4 * (urgeResistPercent day.urges : ℚ) +
      0.25 * (missionCompletionPercent day.missions : ℚ) +
      0.15 * (specScalePct day.energy : ℚ) + 0.1 * (specScalePct day.mood : ℚ) +
      0.1 * (sleepScore day.sleep : ℚ)) 0 100
      = 0.4 * (urgeResistPercent day.urges : ℚ) +
      0.25 * (missionCompletionPercent day.missions : ℚ) +
      0.15 * (specScalePct day.energy : ℚ) + 0.1 * (specScalePct day.mood : ℚ) +
      0.1 * (sleepScore day.sleep : ℚ) := by
    unfold clampQ
    rw [min_eq_right hscore.2, max_eq_right hscore.1]
  have hfinal : pct (0.4 * (urgeResistPercent day.urges : ℚ) +
      0.25 * (missionCompletionPercent day.missions : ℚ) +
      0.15 * (specScalePct day.energy : ℚ) + 0.1 * (specScalePct day.mood : ℚ) +
      0.1 * (sleepScore day.sleep : ℚ)) = specDailyScore day := by
    unfold specDailyScore
    rw [hclamp]
    exact pct_eq_jsRound _ hscore.1 hscore.2
  simp only [calcDailyScoreFromDay, scalePct_eq, sleepScore_clamp, hfinal]
  simp [specGrade]

theorem isCleanDay_key_mem (state : LockInState) (n : ℤ)
    (h : isCleanDay state n = true) :
    dayKeyOfNum n ∈ state.days.map Prod.fst := by
  unfold isCleanDay urgesOn at h
  cases hrec : recordGet state.days (dayKeyOfNum n) with
  | none => rw [hrec] at h; simp at h
  | some d =>
    unfold recordGet at hrec
    cases hfind : state.days.find? (fun p => p.1 = dayKeyOfNum n) with
    | none => rw [hfind] at hrec; simp at hrec
    | some p =>
      have hmem := List.mem_of_find?_eq_some hfind
      have hp := List.find?_some hfind
      simp only [decide_eq_true_eq] at hp
      rw [← hp]
      exact List.mem_map_of_mem Prod.fst hmem

theorem cleanRun_le (state : LockInState) (n : ℤ) (k : ℕ)
    (h : ∀ i : ℕ, i < k → isCleanDay state (n - i) = true) :
    k ≤ state.days.length := by
  classical
  have hinj : Set.InjOn (fun i : ℕ => dayKeyOfNum (n - i)) (Finset.range k) := by
    intro i _ j _ he
    have h2 := dayKeyOfNum_injective he
    omega
  have hcard : ((Finset.range k).image (fun i : ℕ => dayKeyOfNum (n - i))).card = k := by
    rw [Finset.card_image_of_injOn hinj, Finset.card_range]
  have hsub : (Finset.range k).image (fun i : ℕ => dayKeyOfNum (n - i))
      ⊆ (state.days.map Prod.fst).toFinset := by
    intro x hx
    rw [Finset.mem_image] at hx
    obtain ⟨i, hi, rfl⟩ := hx
    rw [List.mem_toFinset]
    exact isCleanDay_key_mem state _ (h i (Finset.mem_range.1 hi))
  have h1 := Finset.card_le_card hsub
  have h2 := (state.days.map Prod.fst).toFinset_card_le
  rw [hcard] at h1
  rw [List.length_map] at h2
  omega

theorem exists_unclean (state : LockInState) (n : ℤ) :
    ∃ k : ℕ, isCleanDay state (n - k) = false := by
  by_contra hc
  push_neg at hc
  have h : ∀ i : ℕ, i < state.days.length + 1 → isCleanDay state (n - i) = true := by
    intro i _
    cases hb : isCleanDay state (n - i) with
    | false => exact absurd hb (hc i)
    | true => rfl
  have := cleanRun_le state n (state.days.length + 1) h
  omega

theorem nat_find_shift (state : LockInState) (n : ℤ) (h : isCleanDay state n = true) :
    Nat.find (exists_unclean state (n - 1)) + 1 = Nat.find (exists_unclean state n) := by
  rw [eq_comm, Nat.find_eq_iff]
  constructor
  · have harg : n - ((Nat.find (exists_unclean state (n - 1)) + 1 : ℕ) : ℤ)
        = (n - 1) - (Nat.find (exists_unclean state (n - 1)) : ℤ) := by
      push_cast
      ring
    rw [harg]
    exact Nat.find_spec (exists_unclean state (n - 1))
  · intro m hm
    cases m with
    | zero => simp [h]
    | succ m2 =>
      have hm2 : m2 < Nat.find (exists_unclean state (n - 1)) := by omega
      have hmin := Nat.find_min (exists_unclean state (n - 1)) hm2
      have harg : n - ((m2 + 1 : ℕ) : ℤ) = (n - 1) - (m2 : ℤ) := by
        push_cast
        ring
      rw [harg]
      exact hmin

theorem streakLoop_eq_find (state : LockInState) :
    ∀ (fuel : ℕ) (n : ℤ), Nat.find (exists_unclean state n) < fuel →
      streakLoop state fuel n = Nat.find (exists_unclean state n) := by
  intro fuel
  induction fuel with
  | zero => intro n h; omega
  | succ fuel ih =>
    intro n hlt
    by_cases hc : isCleanDay state n = true
    · simp only [streakLoop, if_pos hc]
      have hshift := nat_find_shift state n hc
      rw [ih (n - 1) (by omega)]
      omega
    · simp only [streakLoop, if_neg hc]
      have h0 : Nat.find (exists_unclean state n) = 0 := by
        rw [Nat.find_eq_zero]
        cases hb : isCleanDay state n with
        | false => simpa using hb
        | true => exact absurd hb hc
      omega

theorem find_le_length (state : LockInState) (n : ℤ) :
    Nat.find (exists_unclean state n) ≤ state.days.length := by
  apply cleanRun_le state n
  intro i hi
  have hmin := Nat.find_min (exists_unclean state n) hi
  cases hb : isCleanDay state (n - i) with
  | false => exact absurd hb hmin
  | true => rfl

/-- C7: the streak is exactly the count of consecutive clean days walking
backward from the reference day: every day strictly inside the count is
clean (at least one urge, all resisted) and the first day past the count
is not clean — in particular a day with no urges, including one absent
from the map, ends the walk rather than being skipped. -/
theorem calcStreakFromState_spec (state : LockInState) (today : ℤ) :
    (∀ i : ℕ, i < calcStreakFromState state today →
      isCleanDay state (today - i) = true) ∧
    isCleanDay state (today - (calcStreakFromState state today : ℤ)) = false := by
  have hle := find_le_length state today
  have heq : calcStreakFromState state today = Nat.find (exists_unclean state today) :=
    streakLoop_eq_find state (state.days.length + 1) today (by omega)
  rw [heq]
  refine ⟨?_, Nat.find_spec (exists_unclean state today)⟩
  intro i hi
  have hmin := Nat.find_min (exists_unclean state today) hi
  cases hb : isCleanDay state (today - i) with
  | false => exact absurd hb hmin
  | true => rfl

/-- C10: the backward walk terminates on every finite state: a day key
absent from the map yields no urges and is not clean, the result is
bounded by the number of stored days, and giving the loop any more fuel
than one past the stored-day count never changes the result (the
while-true loop stops on its own). -/
theorem calcStreakFromState_terminates (state : LockInState) (today : ℤ) :
    calcStreakFromState state today ≤ state.days.length ∧
    (∀ extra : ℕ, streakLoop state (state.days.length + 1 + extra) today
      = calcStreakFromState state today) ∧
    (∀ n : ℤ, recordGet state.days (dayKeyOfNum n) = none →
      isCleanDay state n = false) := by
  have hle := find_le_length state today
  have heq : calcStreakFromState state today = Nat.find (exists_unclean state today) :=
    streakLoop_eq_find state (state.days.length + 1) today (by omega)
  refine ⟨by rw [heq]; exact hle, ?_, ?_⟩
  · intro extra
    rw [heq, streakLoop_eq_find state (state.days.length + 1 + extra) today (by omega)]
  · intro n hrec
    unfold isCleanDay urgesOn
    rw [hrec]
    rfl

theorem dedup_length_map {α β : Type} [DecidableEq α] [DecidableEq β] (f : α → β)
    (hf : Function.Injective f) (l : List α) :
    (l.map f).dedup.length = l.dedup.length := by
  have h1 : (l.map f).toFinset = l.toFinset.image f := by
    ext b
    simp [List.mem_toFinset, List.mem_map, Finset.mem_image]
  rw [← List.card_toFinset, ← List.card_toFinset, h1,
    Finset.card_image_of_injective _ hf]

theorem jsRound_zero : jsRound 0 = 0 := by
  unfold jsRound
  norm_num

theorem jsRound_clamp100 (x : ℚ) :
    jsRound (clampQ x 0 100) = max 0 (min 100 (jsRound x)) := by
  rcases lt_or_le x 0 with hx | hx
  · have hc : clampQ x 0 100 = 0 := by
      unfold clampQ
      rw [min_eq_right (by linarith), max_eq_left (by linarith)]
    have hle : jsRound x ≤ 0 := by
      have h2 := jsRound_mono x 0 (le_of_lt hx)
      rw [jsRound_zero] at h2
      exact h2
    rw [hc, jsRound_zero]
    omega
  · rcases le_or_lt x 100 with hx2 | hx2
    · have hc : clampQ x 0 100 = x := by
        unfold clampQ
        rw [min_eq_right hx2, max_eq_right hx]
      have hb0 := jsRound_nonneg x hx
      have hb1 := jsRound_le_100 x hx2
      rw [hc]
      omega
    · have hc : clampQ x 0 100 = 100 := by
        unfold clampQ
        rw [min_eq_left (le_of_lt hx2), max_eq_right (by norm_num)]
      have hge : 100 ≤ jsRound x := by
        have h2 := jsRound_mono 100 x (le_of_lt hx2)
        rw [jsRound_100] at h2
        exact h2
      rw [hc, jsRound_100]
      omega

theorem slipDays_string_count (tzMin : ℤ) (entries : List UrgeEntry) :
    ((entries.filter (fun u => !u.resisted)).map
      (fun u => dayKey tzMin u.ts)).dedup.length = slipDayCount tzMin entries := by
  unfold slipDayCount
  have he : (entries.filter (fun u => !u.resisted)).map (fun u => dayKey tzMin u.ts)
      = ((entries.filter (fun u => !u.resisted)).map
          (fun u => localDayNumber tzMin u.ts)).map dayKeyOfNum := by
    rw [List.map_map]
    rfl
  rw [he, dedup_length_map dayKeyOfNum dayKeyOfNum_injective]

theorem resistedPct_forms (entries : List UrgeEntry) :
    (if entries.length ≠ 0
      then ((entries.filter (fun u => u.resisted)).length : ℚ) / (entries.length : ℚ) * 100
      else 0) = specResistedPct entries := by
  unfold specResistedPct
  by_cases h : entries.length = 0
  · simp [h]
  · rw [if_pos h, if_neg h]
    ring

/-- C8: calcWeeklyRank computes the claim's score — the resisted
percentage minus six per distinct local slip day, clamped and rounded —
with the rank assigned by the daily-grade threshold bands, and on the
concrete 10-entry week with 5 resisted and the 5 non-resisted entries on
2 distinct days it yields resistedPct 50, score 38 and RELAPSE WEEK. -/
theorem calcWeeklyRank_matches_spec (tzMin : ℤ) (entries : List UrgeEntry) :
    (calcWeeklyRank tzMin entries).score = specWeeklyScore tzMin entries ∧
    (calcWeeklyRank tzMin entries).slipDays = slipDayCount tzMin entries ∧
    (calcWeeklyRank tzMin entries).resistedPct = jsRound (specResistedPct entries) ∧
    (calcWeeklyRank tzMin entries).rank
      = specWeekRank ((calcWeeklyRank tzMin entries).score) ∧
    calcWeeklyRank 0 c8Entries = ⟨.relapseWeek, 38, 50, 2⟩ := by
  have hdedup := slipDays_string_count tzMin entries
  have hpct := resistedPct_forms entries
  have hscore : (calcWeeklyRank tzMin entries).score = specWeeklyScore tzMin entries := by
    simp only [calcWeeklyRank, specWeeklyScore]
    rw [jsRound_clamp100, hdedup, hpct, mul_comm (slipDayCount tzMin entries : ℚ) 6]
  refine ⟨hscore, ?_, ?_, ?_, ?_⟩
  · simp only [calcWeeklyRank]
    rw [hdedup]
  · simp only [calcWeeklyRank]
    rw [hpct]
  · rfl
  · have h1 : (c8Entries.filter (fun u => u.resisted)).length = 5 := by decide
    have h2 : c8Entries.length = 10 := by decide
    have h3 : ((c8Entries.filter (fun u => !u.resisted)).map
        (fun u => dayKey 0 u.ts)).dedup.length = 2 := by decide
    simp only [calcWeeklyRank, h1, h2, h3]
    norm_num [jsRound]
